import Mathlib

/-!
Verification of the strgrid ASCII table formatter (src/python/strgrid.py).

The source is Python 2.  Its `str` values are byte strings; we model a
byte string as a `List Nat` of byte values in the dynamic-typing layer,
and — for the rendering engine, where only concatenation and length are
used — as a `List Char`.  Machine integers do not overflow here (Python
ints are unbounded), so widths are plain `Int`.
-/

namespace Strgrid

/-! ### Dynamic value layer

`Entry.__init__` performs runtime type checks on arbitrary Python
values, so we embed the relevant fragment of the Python 2 value
universe. -/

/-- A Python 2 runtime value, as far as `Entry.__init__` can observe it.
`str` is the Python 2 byte-string type (a sequence of bytes); `unicode`
is the Python 2 Unicode text type; `int` covers both `int` and `long`. -/
inductive PyVal where
  | str (s : List Nat)
  | unicode (s : List Char)
  | int (n : Int)
  | list (l : List PyVal)
  | tuple (l : List PyVal)
  | none

/-- Python truthiness of a value: empty sequences, zero and None are falsy. -/
def pyTruthy : PyVal → Bool
  | PyVal.str s => !s.isEmpty
  | PyVal.unicode s => !s.isEmpty
  | PyVal.int n => n != 0
  | PyVal.list l => !l.isEmpty
  | PyVal.tuple l => !l.isEmpty
  | PyVal.none => false

/-- The check `type(v) is str` of Python 2: true exactly for byte strings. -/
def isPyStr : PyVal → Bool
  | PyVal.str _ => true
  | _ => false

/-- The check `type(v) in [int, long]` of Python 2. -/
def isPyInt : PyVal → Bool
  | PyVal.int _ => true
  | _ => false

/-- Model of `len(v)`: defined for sequences, a `TypeError` (here `Option.none`)
for ints and `None`. -/
def pyLen : PyVal → Option Nat
  | PyVal.str s => Option.some s.length
  | PyVal.unicode s => Option.some s.length
  | PyVal.list l => Option.some l.length
  | PyVal.tuple l => Option.some l.length
  | PyVal.int _ => Option.none
  | PyVal.none => Option.none

/-- The integer payload of an int value (only consulted after an
`isPyInt` check has succeeded). -/
def pyIntVal : PyVal → Int
  | PyVal.int n => n
  | _ => 0

/-- The byte string `'left'`. -/
def leftBytes : List Nat := [108, 101, 102, 116]

/-- The byte string `'right'`. -/
def rightBytes : List Nat := [114, 105, 103, 104, 116]

/-- The byte string `'center'`. -/
def centerBytes : List Nat := [99, 101, 110, 116, 101, 114]

/-- The membership test `align in ['left', 'right', 'center']`.  Python 2 compares equal
ASCII `str` and `unicode` values as equal, so both forms are admitted. -/
def validAlign : PyVal → Bool
  | PyVal.str s => s = leftBytes || s = rightBytes || s = centerBytes
  | PyVal.unicode s =>
      s = ['l', 'e', 'f', 't'] || s = ['r', 'i', 'g', 'h', 't'] ||
      s = ['c', 'e', 'n', 't', 'e', 'r']
  | _ => false

/-- The error conditions raised by the source, named after the spec
taxonomy (§7).  `invalidTextType` is the `TypeError('type of repr must
be str')`; `invalidAlignment` the `ValueError` on `align`;
`invalidWidthType` the `TypeError('width must be an integer')`;
`lenTypeError` the `TypeError` raised by `len()` on an unsized object;
`emptyGrid` the two `ValueError('array2d cannot be empty')` checks;
`invalidOutputMode` the `ValueError` on `render`'s `output`. -/
inductive PyError where
  | invalidTextType
  | invalidAlignment
  | invalidWidthType
  | lenTypeError
  | emptyGrid
  | invalidOutputMode
deriving DecidableEq

/-- The state of an `Entry` object as built by `Entry.__init__`, at the
dynamic level: `repr` is stored unchanged, whatever its runtime type. -/
structure PyEntry where
  repr : PyVal
  align : PyVal
  width : Int

/-- Model of `Entry.__init__(repr, align, width)` (defaults: `repr=''`,
`align='left'`, `width=None`).  Checks, in source order:
`if repr and type(repr) is not str: raise TypeError`;
`if align not in ['left','right','center']: raise ValueError`;
`if width and type(width) not in [int, long]: raise TypeError`;
then stores `self.width = width or len(repr)`. -/
def entryInit (repr align width : PyVal) : Except PyError PyEntry :=
  if pyTruthy repr && !isPyStr repr then Except.error PyError.invalidTextType
  else if !validAlign align then Except.error PyError.invalidAlignment
  else if pyTruthy width && !isPyInt width then Except.error PyError.invalidWidthType
  else if pyTruthy width then Except.ok ⟨repr, align, pyIntVal width⟩
  else
    match pyLen repr with
    | Option.some n => Except.ok ⟨repr, align, (n : Int)⟩
    | Option.none => Except.error PyError.lenTypeError

/-- The stored `repr` of a construction outcome, when construction
succeeded. -/
def storedRepr : Except PyError PyEntry → Option PyVal
  | Except.ok e => Option.some e.repr
  | Except.error _ => Option.none

/-! ### Spec-modelled display width

Modelled from the spec (§3, §7, Glossary), not from the source: the
east-asian-width-aware display width of a sequence of Unicode code
points — wide code points (CJK ideographs, Hangul, kana, fullwidth
forms) count 2 columns, combining/zero-width code points count 0, all
others count 1.  Used only to compare the source's width computation
against the spec's words. -/

/-- Wide (east-asian width W/F) code point: the principal wide blocks. -/
def isWideCodepoint (c : Nat) : Bool :=
  (0x1100 ≤ c && c ≤ 0x115F) || (0x2E80 ≤ c && c ≤ 0x303E) ||
  (0x3041 ≤ c && c ≤ 0x33FF) || (0x3400 ≤ c && c ≤ 0x4DBF) ||
  (0x4E00 ≤ c && c ≤ 0x9FFF) || (0xA000 ≤ c && c ≤ 0xA4CF) ||
  (0xAC00 ≤ c && c ≤ 0xD7A3) || (0xF900 ≤ c && c ≤ 0xFAFF) ||
  (0xFE30 ≤ c && c ≤ 0xFE4F) || (0xFF00 ≤ c && c ≤ 0xFF60) ||
  (0xFFE0 ≤ c && c ≤ 0xFFE6)

/-- Zero-width code point: combining marks and zero-width characters. -/
def isZeroWidthCodepoint (c : Nat) : Bool :=
  (0x0300 ≤ c && c ≤ 0x036F) || (0x20D0 ≤ c && c ≤ 0x20FF) ||
  c == 0x200B || c == 0x200C || c == 0x200D || c == 0xFE0F

/-- Modelled from the spec: east-asian-width-aware display width of a
code-point sequence (wide ↦ 2, zero-width ↦ 0, otherwise 1). -/
def specDisplayWidth (cps : List Nat) : Nat :=
  (cps.map (fun c =>
    if isZeroWidthCodepoint c then 0 else if isWideCodepoint c then 2 else 1)).sum

/-- The code points of `女神様` (three CJK ideographs, U+5973 U+795E
U+69D8), the wide-character text used by the repository's own example. -/
def goddessCodepoints : List Nat := [0x5973, 0x795E, 0x69D8]

/-- The UTF-8 encoding of `女神様`: nine bytes, three per ideograph. -/
def goddessUtf8 : List Nat :=
  [0xE5, 0xA5, 0xB3, 0xE7, 0xA5, 0x9E, 0xE6, 0xA7, 0x98]

/-! ### The typed engine

The grid engine only ever receives `Entry` objects that passed
`Entry.__init__`, so it is embedded over a typed `Entry` record: `repr`
is the stored string (a Python 2 byte string, modelled as a `List Char`
of its bytes/characters — only concatenation and length are used),
`align` one of the three accepted tags, `width` the stored integer. -/

/-- The three accepted alignment tags. -/
inductive Align where
  | left
  | right
  | center
deriving DecidableEq

/-- A constructed `Entry`, as the grid engine sees it. -/
structure Entry where
  repr : List Char
  align : Align
  width : Int
deriving DecidableEq

/-- The state built by `StringGrid.__init__`. -/
structure StringGrid where
  array2d : List (List Entry)
  row_count : Nat
  column_count : Nat
  column_widths : List Int
deriving DecidableEq

/-- The inner loop of `StringGrid.__init__` over one row: for each
entry index `j`, `if entry.width > self.column_widths[j]:
self.column_widths[j] = entry.width`, and on `IndexError` (which occurs
exactly when `j` equals the current length) `append(entry.width)`. -/
def rowUpdateWidths : List Int → List Entry → List Int
  | [], [] => []
  | [], e :: es => e.width :: rowUpdateWidths [] es
  | ws, [] => ws
  | w :: ws, e :: es =>
      (if e.width > w then e.width else w) :: rowUpdateWidths ws es

/-- Model of `StringGrid.__init__(array2d)`: rejects an empty outer sequence and
a grid with zero columns (`ValueError('array2d cannot be empty')`),
otherwise computes `row_count`, `column_count` (running maximum of row
lengths) and `column_widths` (running per-column maxima) in one pass,
here split into two equivalent folds. -/
def gridInit (array2d : List (List Entry)) : Except PyError StringGrid :=
  if array2d.length ≤ 0 then Except.error PyError.emptyGrid
  else
    let column_count :=
      array2d.foldl (fun c row => if row.length > c then row.length else c) 0
    let column_widths := array2d.foldl rowUpdateWidths []
    if column_count ≤ 0 then Except.error PyError.emptyGrid
    else Except.ok ⟨array2d, array2d.length, column_count, column_widths⟩

/-- The body of `StringGrid.renderCell` given the entry and its column
width: `spaces = column_width - entry.width`, pad `repr` by alignment
(`' ' * n` is empty for negative `n`, hence `Int.toNat`; Python's `/`
and `%` are floor division and floor modulus, hence `Int.fdiv` — Lean's
`Int` `%` is already the floor/euclidean modulus for the positive
divisor 2), and wrap in one margin space per side (`' %s ' % cont`). -/
def renderCellE (entry : Entry) (column_width : Int) : List Char :=
  let spaces : Int := column_width - entry.width
  let cont : List Char :=
    match entry.align with
    | Align.left => entry.repr ++ List.replicate spaces.toNat ' '
    | Align.right => List.replicate spaces.toNat ' ' ++ entry.repr
    | Align.center =>
        if spaces % 2 = 0 then
          let half := spaces.fdiv 2
          List.replicate half.toNat ' ' ++ entry.repr ++
            List.replicate half.toNat ' '
        else
          let pref := (spaces - 1).fdiv 2
          let post := spaces - pref
          List.replicate pref.toNat ' ' ++ entry.repr ++
            List.replicate post.toNat ' '
  ' ' :: cont ++ [' ']

/-- Model of `StringGrid.renderCell(i, j)`: looks up `self.array2d[i][j]` — the
`IndexError` on a short row is modelled as `Option.none` and caught by
the caller — and pads it to `self.column_widths[j]`.  Call sites have
`i < row_count` and `j < column_count = column_widths.length`, so the
`getD` defaults are never consulted. -/
def renderCell (g : StringGrid) (i j : Nat) : Option (List Char) :=
  match (g.array2d.getD i [])[j]? with
  | Option.some entry =>
      Option.some (renderCellE entry (g.column_widths.getD j 0))
  | Option.none => Option.none

/-- One column position of a rendered row: the rendered cell when the
row has an entry at `j`, otherwise the `except IndexError` branch
`' %s ' % (' ' * self.column_widths[j])`. -/
def cellOrBlank (g : StringGrid) (index j : Nat) : List Char :=
  match renderCell g index j with
  | Option.some s => s
  | Option.none =>
      ' ' :: List.replicate (g.column_widths.getD j 0).toNat ' ' ++ [' ']

/-- Model of `StringGrid.renderRow(index)`: starts from `result = ['|']`, and for
`j in range(self.column_count)` appends the cell (or the blank cell on
`IndexError`) and then `'|'`; finally `''.join(result)`. -/
def renderRow (g : StringGrid) (index : Nat) : List Char :=
  ((List.range g.column_count).foldl
    (fun result j => result ++ [cellOrBlank g index j, ['|']])
    [['|']]).flatten

/-- Model of `StringGrid.renderHorizontalSplitter(column_widths)`:
`'+%s+' % '+'.join(['-' * (i + 2) for i in column_widths])`. -/
def renderHorizontalSplitter (column_widths : List Int) : List Char :=
  '+' :: (List.intercalate ['+']
    (column_widths.map (fun i => List.replicate (i + 2).toNat '-'))) ++ ['+']

/-- The line sequence built by `StringGrid.render`: first splitter, row
0, second splitter, then — when `row_count > 1` — the rows
`range(self.row_count)[1:]` and a closing splitter. -/
def render_list (g : StringGrid) : List (List Char) :=
  let horizontal_splitter := renderHorizontalSplitter g.column_widths
  let base := [horizontal_splitter, renderRow g 0, horizontal_splitter]
  if g.row_count > 1 then
    base ++ ((List.range g.row_count).drop 1).map (fun i => renderRow g i)
      ++ [horizontal_splitter]
  else base

/-- The byte string `'str'`, the joined-string output mode. -/
def modeStr : List Char := ['s', 't', 'r']

/-- The byte string `'list'`, the line-sequence output mode. -/
def modeList : List Char := ['l', 'i', 's', 't']

/-- A `render` result: either the newline-joined string or the list of
line strings. -/
inductive RenderOut where
  | str (s : List Char)
  | list (l : List (List Char))
deriving DecidableEq

/-- Model of `StringGrid.render(output)`: rejects any `output` outside
`['str', 'list']` with a `ValueError`, and returns either
`'\n'.join(rendered_rows)` or the list itself. -/
def render (g : StringGrid) (output : List Char) : Except PyError RenderOut :=
  if output = modeStr then
    Except.ok (RenderOut.str (List.intercalate ['\n'] (render_list g)))
  else if output = modeList then
    Except.ok (RenderOut.list (render_list g))
  else Except.error PyError.invalidOutputMode

/-- Model of `StringGrid.extractStrings()`: `[[entry.repr for entry in row] for
row in self.array2d]`. -/
def extractStrings (g : StringGrid) : List (List (List Char)) :=
  g.array2d.map (fun row => row.map (fun entry => entry.repr))

/-! ### Spec-side helpers for the column-width characterization -/

/-- The `displayWidth`s of the cells actually present at column `j`:
rows shorter than `j + 1` contribute nothing. -/
def colCells (rows : List (List Entry)) (j : Nat) : List Int :=
  rows.filterMap (fun r => r[j]?.map Entry.width)

/-- The maximum of a list of widths, `Option.none` when no cell is
present. -/
def maxPresent : List Int → Option Int
  | [] => Option.none
  | w :: l => Option.some (l.foldl max w)

/-- Merge of two optional maxima. -/
def optMax : Option Int → Option Int → Option Int
  | Option.none, b => b
  | Option.some a, Option.none => Option.some a
  | Option.some a, Option.some b => Option.some (max a b)

/-! ### Lemmas about the column-width computation -/

theorem optMax_none_left (b : Option Int) : optMax Option.none b = b := rfl

theorem optMax_none_right (a : Option Int) : optMax a Option.none = a := by
  cases a <;> rfl

theorem optMax_assoc (a b c : Option Int) :
    optMax (optMax a b) c = optMax a (optMax b c) := by
  cases a <;> cases b <;> cases c <;> simp [optMax, max_assoc]

theorem foldl_max_max (l : List Int) :
    ∀ a b : Int, l.foldl max (max a b) = max a (l.foldl max b) := by
  induction l with
  | nil => intro a b; rfl
  | cons c l ih =>
      intro a b
      have h : max (max a b) c = max a (max b c) := max_assoc a b c
      simp only [List.foldl_cons, h, ih]

theorem maxPresent_cons (w : Int) (l : List Int) :
    maxPresent (w :: l) = optMax (Option.some w) (maxPresent l) := by
  cases l with
  | nil => rfl
  | cons v l => simp [maxPresent, optMax, foldl_max_max]

theorem le_foldl_max_init (l : List Int) : ∀ a : Int, a ≤ l.foldl max a := by
  induction l with
  | nil => intro a; exact le_refl a
  | cons c l ih =>
      intro a
      calc a ≤ max a c := le_max_left a c
        _ ≤ l.foldl max (max a c) := ih (max a c)
        _ = _ := by simp [List.foldl_cons]

theorem mem_le_foldl_max (l : List Int) :
    ∀ a w : Int, w ∈ l → w ≤ l.foldl max a := by
  induction l with
  | nil => intro a w h; cases h
  | cons c l ih =>
      intro a w h
      rcases List.mem_cons.mp h with h | h
      · subst h
        calc w ≤ max a w := le_max_right a w
          _ ≤ l.foldl max (max a w) := le_foldl_max_init l (max a w)
          _ = _ := by simp [List.foldl_cons]
      · simpa [List.foldl_cons] using ih (max a c) w h

theorem foldl_max_mem (l : List Int) :
    ∀ a : Int, l.foldl max a = a ∨ l.foldl max a ∈ l := by
  induction l with
  | nil => intro a; exact Or.inl rfl
  | cons c l ih =>
      intro a
      rcases ih (max a c) with h | h
      · rcases max_choice a c with hm | hm
        · exact Or.inl (by simp only [List.foldl_cons]; exact h.trans hm)
        · refine Or.inr ?_
          simp only [List.foldl_cons]
          rw [h, hm]
          exact List.mem_cons_self c l
      · refine Or.inr ?_
        simp only [List.foldl_cons]
        exact List.mem_cons_of_mem c h

theorem maxPresent_mem (l : List Int) (m : Int)
    (h : maxPresent l = Option.some m) : m ∈ l := by
  cases l with
  | nil => cases h
  | cons w l =>
      have hm : l.foldl max w = m := by
        simpa [maxPresent] using h
      rcases foldl_max_mem l w with h' | h'
      · refine List.mem_cons.mpr (Or.inl ?_)
        rw [← hm]; exact h'
      · refine List.mem_cons.mpr (Or.inr ?_)
        rw [← hm]; exact h'

theorem le_maxPresent (l : List Int) (w m : Int)
    (hw : w ∈ l) (h : maxPresent l = Option.some m) : w ≤ m := by
  cases l with
  | nil => cases hw
  | cons v l =>
      have hm : l.foldl max v = m := by simpa [maxPresent] using h
      rcases List.mem_cons.mp hw with h' | h'
      · subst h'
        exact hm ▸ le_foldl_max_init l w
      · exact hm ▸ mem_le_foldl_max l v w h'

theorem rowUpdateWidths_getElem? :
    ∀ (ws : List Int) (es : List Entry) (j : Nat),
      (rowUpdateWidths ws es)[j]? = optMax ws[j]? (es[j]?.map Entry.width) := by
  intro ws es
  induction es generalizing ws with
  | nil =>
      intro j
      cases ws with
      | nil => simp [rowUpdateWidths, optMax]
      | cons w ws => simp [rowUpdateWidths, optMax_none_right]
  | cons e es ih =>
      intro j
      cases ws with
      | nil =>
          cases j with
          | zero => simp [rowUpdateWidths, optMax]
          | succ j => simpa [rowUpdateWidths] using ih [] j
      | cons w ws =>
          cases j with
          | zero =>
              have : (if e.width > w then e.width else w) = max w e.width := by
                rcases max_choice w e.width with h | h <;> (rw [h]; split <;> omega)
              simp [rowUpdateWidths, this, optMax]
          | succ j => simpa [rowUpdateWidths] using ih ws j

theorem rowUpdateWidths_length :
    ∀ (ws : List Int) (es : List Entry),
      (rowUpdateWidths ws es).length = max ws.length es.length := by
  intro ws es
  induction es generalizing ws with
  | nil => cases ws <;> simp [rowUpdateWidths]
  | cons e es ih =>
      cases ws with
      | nil => simpa [rowUpdateWidths] using ih []
      | cons w ws =>
          simp only [rowUpdateWidths, List.length_cons, ih ws]
          omega

theorem colCells_cons (r : List Entry) (rows : List (List Entry)) (j : Nat) :
    colCells (r :: rows) j =
      match r[j]? with
      | Option.some e => e.width :: colCells rows j
      | Option.none => colCells rows j := by
  cases h : r[j]? <;> simp [colCells, List.filterMap_cons, h]

theorem foldl_rowUpdate_getElem? :
    ∀ (rows : List (List Entry)) (ws : List Int) (j : Nat),
      (rows.foldl rowUpdateWidths ws)[j]? =
        optMax ws[j]? (maxPresent (colCells rows j)) := by
  intro rows
  induction rows with
  | nil =>
      intro ws j
      simp [colCells, maxPresent, optMax_none_right]
  | cons r rows ih =>
      intro ws j
      have step : (List.foldl rowUpdateWidths ws (r :: rows))[j]? =
          optMax (optMax ws[j]? (r[j]?.map Entry.width))
            (maxPresent (colCells rows j)) := by
        simpa [List.foldl_cons, rowUpdateWidths_getElem?] using
          ih (rowUpdateWidths ws r) j
      rw [step, optMax_assoc, colCells_cons]
      cases hr : r[j]? with
      | none => simp [optMax_none_left]
      | some e => simp [maxPresent_cons]

theorem foldl_rowUpdate_length :
    ∀ (rows : List (List Entry)) (ws : List Int),
      (rows.foldl rowUpdateWidths ws).length =
        rows.foldl (fun c row => if row.length > c then row.length else c)
          ws.length := by
  intro rows
  induction rows with
  | nil => intro ws; rfl
  | cons r rows ih =>
      intro ws
      have hm : max ws.length r.length =
          (if r.length > ws.length then r.length else ws.length) := by
        rcases Nat.le_total ws.length r.length with h | h <;> (split <;> omega)
      simp only [List.foldl_cons, ih (rowUpdateWidths ws r),
        rowUpdateWidths_length, hm]

theorem exists_row_of_lt_foldl_count :
    ∀ (rows : List (List Entry)) (a j : Nat),
      j < rows.foldl (fun c row => if row.length > c then row.length else c) a →
      j < a ∨ ∃ r ∈ rows, j < r.length := by
  intro rows
  induction rows with
  | nil => intro a j h; exact Or.inl h
  | cons r rows ih =>
      intro a j h
      simp only [List.foldl_cons] at h
      rcases ih _ j h with h' | h'
      · by_cases hr : r.length > a
        · simp only [if_pos hr] at h'
          exact Or.inr ⟨r, List.mem_cons_self r rows, h'⟩
        · simp only [if_neg hr] at h'
          exact Or.inl h'
      · rcases h' with ⟨s, hs, hjs⟩
        exact Or.inr ⟨s, List.mem_cons_of_mem r hs, hjs⟩

/-- Unfolding of a successful `gridInit`: the stored fields in terms of
the input, plus the two validated non-emptiness facts. -/
theorem gridInit_ok (arr : List (List Entry)) (g : StringGrid)
    (h : gridInit arr = Except.ok g) :
    g.array2d = arr ∧ g.row_count = arr.length ∧
    g.column_count =
      arr.foldl (fun c row => if row.length > c then row.length else c) 0 ∧
    g.column_widths = arr.foldl rowUpdateWidths [] ∧
    1 ≤ arr.length ∧ 1 ≤ g.column_count := by
  unfold gridInit at h
  by_cases h1 : arr.length ≤ 0
  · rw [if_pos h1] at h; cases h
  · rw [if_neg h1] at h
    simp only at h
    by_cases h2 :
        arr.foldl (fun c row => if row.length > c then row.length else c) 0 ≤ 0
    · rw [if_pos h2] at h; cases h
    · rw [if_neg h2] at h
      cases h
      refine ⟨rfl, rfl, rfl, rfl, by omega, ?_⟩
      show 1 ≤ arr.foldl (fun c row => if row.length > c then row.length else c) 0
      omega

/-! ### Concrete grids used to instantiate the theorems -/

/-- Scenario A input: `[[Entry('x')]]`. -/
def arrA : List (List Entry) := [[⟨['x'], Align.left, 1⟩]]

/-- The grid built from `arrA`. -/
def gridA : StringGrid := ⟨arrA, 1, 1, [1]⟩

/-- Scenario B input:
`[[Entry('hello'), Entry(''), Entry('world', 'center')],
[Entry('a'), Entry('bb')]]`. -/
def arrB : List (List Entry) :=
  [[⟨['h', 'e', 'l', 'l', 'o'], Align.left, 5⟩, ⟨[], Align.left, 0⟩,
    ⟨['w', 'o', 'r', 'l', 'd'], Align.center, 5⟩],
   [⟨['a'], Align.left, 1⟩, ⟨['b', 'b'], Align.left, 2⟩]]

/-- The grid built from `arrB`. -/
def gridB : StringGrid := ⟨arrB, 2, 3, [5, 2, 5]⟩

/-- A grid whose single entry was given an explicit width (1) different
from the length of its text (`Entry('ab', width=1)`). -/
def arrW : List (List Entry) := [[⟨['a', 'b'], Align.left, 1⟩]]

/-- The grid built from `arrW`. -/
def gridW : StringGrid := ⟨arrW, 1, 1, [1]⟩

/-! ### The claims -/

/-- C1: for every valid grid input, after construction `columnWidths`
has length `columnCount`, and for every column index `j`,
`columnWidths[j]` is the maximum of `displayWidth` over the cells
actually present at column `j` across all rows — cells missing from
shorter rows are absent from the maximum, not counted as zero-width
(`colCells` collects only the widths of present cells). -/
theorem c1_column_widths_max (arr : List (List Entry)) (g : StringGrid)
    (h : gridInit arr = Except.ok g) :
    g.column_widths.length = g.column_count ∧
    ∀ j : Nat, j < g.column_count →
      g.column_widths[j]? = maxPresent (colCells arr j) := by
  obtain ⟨-, -, hcc, hcw, -, -⟩ := gridInit_ok arr g h
  constructor
  · rw [hcw, foldl_rowUpdate_length, hcc]; rfl
  · intro j hj
    rw [hcw, foldl_rowUpdate_getElem?]
    simp [optMax_none_left]

/-- Witness for C1 at the jagged Scenario B grid, column 2: the short
second row is absent from the maximum, which is 5 (from `'world'`). -/
theorem c1_witness :
    gridB.column_widths[2]? = maxPresent (colCells arrB 2) :=
  (c1_column_widths_max arrB gridB rfl).2 2 (by decide)

/-- C2: for every valid grid, `render` produces exactly: one horizontal
splitter, the rendering of row 0, a second splitter, and — only when
`rowCount > 1` — the renderings of rows `1 .. rowCount−1` in original
order followed by one final splitter; hence a single-row grid yields 3
lines and an `n > 1`-row grid yields `n + 3` lines.  The `'str'` mode
returns the same sequence joined by newlines, the `'list'` mode the
sequence itself. -/
theorem c2_render_line_sequence (arr : List (List Entry)) (g : StringGrid)
    (h : gridInit arr = Except.ok g) :
    (render_list g).length = (if g.row_count > 1 then g.row_count + 3 else 3) ∧
    (render_list g)[0]? = Option.some (renderHorizontalSplitter g.column_widths) ∧
    (render_list g)[1]? = Option.some (renderRow g 0) ∧
    (render_list g)[2]? = Option.some (renderHorizontalSplitter g.column_widths) ∧
    (∀ i : Nat, 1 ≤ i → i < g.row_count →
      (render_list g)[i + 2]? = Option.some (renderRow g i)) ∧
    (g.row_count > 1 →
      (render_list g)[g.row_count + 2]? =
        Option.some (renderHorizontalSplitter g.column_widths)) ∧
    render g modeStr =
      Except.ok (RenderOut.str (List.intercalate ['\n'] (render_list g))) ∧
    render g modeList = Except.ok (RenderOut.list (render_list g)) := by
  have hmodes : render g modeStr =
      Except.ok (RenderOut.str (List.intercalate ['\n'] (render_list g))) ∧
      render g modeList = Except.ok (RenderOut.list (render_list g)) := by
    constructor
    · rw [render, if_pos rfl]
    · rw [render, if_neg (by decide), if_pos rfl]
  by_cases hrc : g.row_count > 1
  · have hlen : (((List.range g.row_count).drop 1).map
        (fun i => renderRow g i)).length = g.row_count - 1 := by
      simp
    refine ⟨?_, ?_, ?_, ?_, ?_, ?_, hmodes.1, hmodes.2⟩
    · simp only [render_list, if_pos hrc, List.length_append, List.length_cons,
        List.length_nil, List.length_map, List.length_drop, List.length_range]
      omega
    · simp [render_list, if_pos hrc]
    · simp [render_list, if_pos hrc]
    · simp [render_list, if_pos hrc]
    · intro i h1 hi
      obtain ⟨k, rfl⟩ : ∃ k, i = k + 1 := ⟨i - 1, by omega⟩
      simp only [render_list, if_pos hrc, List.cons_append, List.nil_append]
      show (_ :: _ :: _ :: (_ ++ _))[k + 3]? = _
      simp only [List.getElem?_cons_succ]
      rw [List.getElem?_append_left (by simp; omega)]
      rw [List.getElem?_map, List.getElem?_drop,
        List.getElem?_range (by omega : 1 + k < g.row_count)]
      simp [Nat.add_comm 1 k]
    · intro _
      obtain ⟨m, hm⟩ : ∃ m, g.row_count = m + 2 := ⟨g.row_count - 2, by omega⟩
      simp only [render_list, List.cons_append, List.nil_append, hm,
        if_pos (show m + 2 > 1 by omega)]
      show (renderHorizontalSplitter g.column_widths :: renderRow g 0 ::
        renderHorizontalSplitter g.column_widths ::
        (((List.range (m + 2)).drop 1).map (fun i => renderRow g i) ++
          [renderHorizontalSplitter g.column_widths]))[m + 4]? =
        Option.some (renderHorizontalSplitter g.column_widths)
      simp only [List.getElem?_cons_succ]
      rw [List.getElem?_append_right (by simp)]
      simp
  · refine ⟨?_, ?_, ?_, ?_, ?_, ?_, hmodes.1, hmodes.2⟩
    · simp [render_list, if_neg hrc]
    · simp [render_list, if_neg hrc]
    · simp [render_list, if_neg hrc]
    · simp [render_list, if_neg hrc]
    · intro i h1 hi; omega
    · intro hcon; omega

/-- Witness for C2 at the two-row Scenario B grid: 2 + 3 = 5 lines, and
line 3 is the rendering of row 1. -/
theorem c2_witness :
    (render_list gridB).length = (if gridB.row_count > 1 then gridB.row_count + 3 else 3) ∧
    (render_list gridB)[1 + 2]? = Option.some (renderRow gridB 1) :=
  ⟨(c2_render_line_sequence arrB gridB rfl).1,
   (c2_render_line_sequence arrB gridB rfl).2.2.2.2.1 1 (by decide) (by decide)⟩

/-- C7: for a center-aligned cell with `spaces = columnWidth −
displayWidth ≥ 0`, the rendered cell puts `spaces / 2` padding columns
on each side when `spaces` is even, and `(spaces − 1) / 2` before with
the remainder `spaces − (spaces − 1) / 2` after when `spaces` is odd
(the extra column goes to the right), the whole wrapped in exactly one
literal margin space per side. -/
theorem c7_center_alignment (e : Entry) (cw : Int)
    (halign : e.align = Align.center) (hsp : 0 ≤ cw - e.width) :
    renderCellE e cw =
      ' ' :: (List.replicate
          (if (cw - e.width).toNat % 2 = 0 then (cw - e.width).toNat / 2
           else ((cw - e.width).toNat - 1) / 2) ' ' ++ e.repr ++
        List.replicate ((cw - e.width).toNat -
          (if (cw - e.width).toNat % 2 = 0 then (cw - e.width).toNat / 2
           else ((cw - e.width).toNat - 1) / 2)) ' ') ++ [' '] := by
  have hfd : (cw - e.width).fdiv 2 = (cw - e.width) / 2 :=
    Int.fdiv_eq_ediv _ (by omega)
  have hfd1 : (cw - e.width - 1).fdiv 2 = (cw - e.width - 1) / 2 :=
    Int.fdiv_eq_ediv _ (by omega)
  simp only [renderCellE, halign]
  by_cases hpar : (cw - e.width) % 2 = 0
  · have hs : (cw - e.width).toNat % 2 = 0 := by omega
    have h1 : ((cw - e.width).fdiv 2).toNat = (cw - e.width).toNat / 2 := by
      rw [hfd]; omega
    have h2 : (cw - e.width).toNat - (cw - e.width).toNat / 2 =
        (cw - e.width).toNat / 2 := by omega
    rw [if_pos hpar, if_pos hs, h1, h2]
  · have hs : ¬ (cw - e.width).toNat % 2 = 0 := by omega
    have h1 : ((cw - e.width - 1).fdiv 2).toNat =
        ((cw - e.width).toNat - 1) / 2 := by
      rw [hfd1]; omega
    have h2 : (cw - e.width - (cw - e.width - 1).fdiv 2).toNat =
        (cw - e.width).toNat - ((cw - e.width).toNat - 1) / 2 := by
      rw [hfd1]; omega
    rw [if_neg hpar, if_neg hs, h1, h2]

/-- Witness for C7, Scenario C: a display-width-3 cell centered in a
width-4 column (spaces = 1, odd) renders with 0 spaces before and 1
after the text, wrapped in one margin space per side. -/
theorem c7_witness :
    renderCellE ⟨['a', 'b', 'c'], Align.center, 3⟩ 4 =
      ' ' :: (List.replicate 0 ' ' ++ ['a', 'b', 'c'] ++
        List.replicate 1 ' ') ++ [' '] :=
  (c7_center_alignment ⟨['a', 'b', 'c'], Align.center, 3⟩ 4 rfl
    (by decide)).trans (by decide)

/-- The accumulator form of `renderRow`'s loop flattens to the
flattened map of per-column pieces. -/
theorem foldl_append_pairs_flatten (l : List Nat) (f : Nat → List Char) :
    ∀ acc : List (List Char),
      (l.foldl (fun result j => result ++ [f j, ['|']]) acc).flatten =
        acc.flatten ++ (l.map (fun j => f j ++ ['|'])).flatten := by
  induction l with
  | nil => intro acc; simp
  | cons x l ih =>
      intro acc
      simp only [List.foldl_cons, List.map_cons, List.flatten_cons, ih]
      simp [List.append_assoc]

/-- Characterization of `renderRow` as a leading `'|'` followed by, for each column, the
cell piece and its closing `'|'`. -/
theorem renderRow_eq (g : StringGrid) (index : Nat) :
    renderRow g index =
      '|' :: ((List.range g.column_count).map
        (fun j => cellOrBlank g index j ++ ['|'])).flatten := by
  unfold renderRow
  rw [foldl_append_pairs_flatten (f := fun j => cellOrBlank g index j)]
  simp

/-- C8: rendering a row emits, for each column index `j` from 0 to
`columnCount − 1`, the padded cell at `(row, j)` when the row has a
cell there, and otherwise a blank cell of one space, `columnWidths[j]`
spaces and one space, with a `'|'` separator before each cell and one
closing the row. -/
theorem c8_row_rendering (arr : List (List Entry)) (g : StringGrid)
    (h : gridInit arr = Except.ok g) (index : Nat)
    (hindex : index < g.row_count) :
    renderRow g index =
      '|' :: ((List.range g.column_count).map (fun j =>
        (match (arr.getD index [])[j]? with
         | Option.some e => renderCellE e (g.column_widths.getD j 0)
         | Option.none =>
             ' ' :: List.replicate (g.column_widths.getD j 0).toNat ' ' ++ [' '])
        ++ ['|'])).flatten := by
  obtain ⟨ha, -, -, -, -, -⟩ := gridInit_ok arr g h
  rw [renderRow_eq]
  have hcell : ∀ j : Nat, cellOrBlank g index j =
      (match (arr.getD index [])[j]? with
       | Option.some e => renderCellE e (g.column_widths.getD j 0)
       | Option.none =>
           ' ' :: List.replicate (g.column_widths.getD j 0).toNat ' ' ++ [' ']) := by
    intro j
    unfold cellOrBlank renderCell
    rw [ha]
    cases (arr.getD index [])[j]? <;> rfl
  simp only [hcell]

/-- Witness for C8 at Scenario B, body row 1: the ragged row's column 2
is the blank-cell branch, padded to the header's column-2 width. -/
theorem c8_witness :
    renderRow gridB 1 =
      '|' :: ((List.range gridB.column_count).map (fun j =>
        (match (arrB.getD 1 [])[j]? with
         | Option.some e => renderCellE e (gridB.column_widths.getD j 0)
         | Option.none =>
             ' ' :: List.replicate (gridB.column_widths.getD j 0).toNat ' ' ++ [' '])
        ++ ['|'])).flatten :=
  c8_row_rendering arrB gridB rfl 1 (by decide)

/-- C9: `extractStrings` returns the grid's original raw text values in
their original row and column positions, preserving the jagged
structure exactly (a round-trip on text; alignment and width are
dropped with the `Entry` wrapper).  In this pure embedding it evidently
modifies nothing. -/
theorem c9_extract_strings (arr : List (List Entry)) (g : StringGrid)
    (h : gridInit arr = Except.ok g) :
    extractStrings g = arr.map (fun row => row.map (fun entry => entry.repr)) := by
  obtain ⟨ha, -, -, -, -, -⟩ := gridInit_ok arr g h
  rw [extractStrings, ha]

/-- Witness for C9 at the jagged Scenario B grid: the exact original
texts come back, jagged shape included. -/
theorem c9_witness :
    extractStrings gridB =
      [[['h', 'e', 'l', 'l', 'o'], [], ['w', 'o', 'r', 'l', 'd']],
       [['a'], ['b', 'b']]] :=
  (c9_extract_strings arrB gridB rfl).trans (by decide)

/-! ### Line-length lemmas -/

/-- A rendered cell with nonnegative slack occupies
`displayLength(repr) + spaces` columns plus the two margin spaces,
whatever the alignment. -/
theorem renderCellE_length (e : Entry) (cw : Int) (hsp : 0 ≤ cw - e.width) :
    (renderCellE e cw).length = e.repr.length + (cw - e.width).toNat + 2 := by
  have hfd : (cw - e.width).fdiv 2 = (cw - e.width) / 2 :=
    Int.fdiv_eq_ediv _ (by omega)
  have hfd1 : (cw - e.width - 1).fdiv 2 = (cw - e.width - 1) / 2 :=
    Int.fdiv_eq_ediv _ (by omega)
  obtain ⟨r, a, w⟩ := e
  simp only at hsp hfd hfd1
  cases a with
  | left =>
      simp only [renderCellE, List.length_cons, List.length_append,
        List.length_replicate, List.length_nil]
      try omega
  | right =>
      simp only [renderCellE, List.length_cons, List.length_append,
        List.length_replicate, List.length_nil]
      try omega
  | center =>
      simp only [renderCellE]
      split
      · simp only [List.length_cons, List.length_append, List.length_replicate,
          List.length_nil]
        rename_i hpar
        rw [hfd]
        omega
      · simp only [List.length_cons, List.length_append, List.length_replicate,
          List.length_nil]
        rename_i hpar
        rw [hfd1]
        omega

/-- Indexed sum over a list equals the mapped sum. -/
theorem sum_map_range_getD (ws : List Int) (F : Int → Nat) :
    ((List.range ws.length).map (fun j => F (ws.getD j 0))).sum =
      (ws.map F).sum := by
  induction ws with
  | nil => rfl
  | cons w ws ih =>
      rw [List.length_cons, List.range_succ_eq_map]
      simp only [List.map_cons, List.map_map, List.sum_cons]
      have : (List.range ws.length).map
          (fun j => F ((w :: ws).getD (j + 1) 0)) =
          (List.range ws.length).map (fun j => F (ws.getD j 0)) := by
        apply List.map_congr_left
        intro j hj
        rfl
      simp only [Function.comp_def, List.getD_cons_zero, List.getD_cons_succ]
      rw [← ih]

/-- Length of a `'+'`-joined sequence of dash runs. -/
theorem intercalate_plus_length :
    ∀ (ps : List (List Char)) (p : List Char),
      (List.intercalate ['+'] (p :: ps)).length =
        p.length + (ps.map (fun q => q.length + 1)).sum := by
  intro ps
  induction ps with
  | nil => intro p; simp [List.intercalate]
  | cons q ps ih =>
      intro p
      have hstep : List.intercalate ['+'] (p :: q :: ps) =
          p ++ ['+'] ++ List.intercalate ['+'] (q :: ps) := by
        simp only [List.intercalate, List.intersperse_cons_cons,
          List.flatten_cons]
        simp [List.append_assoc]
      rw [hstep]
      simp only [List.length_append, ih q, List.map_cons, List.sum_cons]
      simp
      omega

/-- The splitter line's total length, for a nonempty list of
nonnegative column widths. -/
theorem renderHorizontalSplitter_length (ws : List Int) (hne : ws ≠ [])
    (hpos : ∀ w ∈ ws, 0 ≤ w) :
    (renderHorizontalSplitter ws).length =
      1 + (ws.map (fun w => w.toNat + 3)).sum := by
  cases ws with
  | nil => cases hne rfl
  | cons w ws =>
      simp only [renderHorizontalSplitter, List.map_cons]
      simp only [List.length_cons, List.length_append]
      rw [intercalate_plus_length (ws.map (fun i => List.replicate (i + 2).toNat '-'))]
      simp only [List.length_replicate, List.map_map, Function.comp_def,
        List.length_singleton]
      have h0 : (w + 2).toNat = w.toNat + 2 := by
        have := hpos w (List.mem_cons_self w ws)
        omega
      have hmap : ws.map (fun x => (x + 2).toNat + 1) =
          ws.map (fun x => x.toNat + 3) := by
        apply List.map_congr_left
        intro i hi
        have := hpos i (List.mem_cons_of_mem w hi)
        omega
      rw [hmap]
      simp only [List.sum_cons, List.length_nil]
      omega

/-- In a constructed grid, each column width is attained by some
present cell: `column_widths[j]` is the width of an entry stored at
column `j` of some row. -/
theorem column_width_attained (arr : List (List Entry)) (g : StringGrid)
    (h : gridInit arr = Except.ok g) (j : Nat) (cw : Int)
    (hj : g.column_widths[j]? = Option.some cw) :
    ∃ row ∈ arr, ∃ e : Entry, row[j]? = Option.some e ∧ e.width = cw := by
  obtain ⟨-, -, -, hcw, -, -⟩ := gridInit_ok arr g h
  rw [hcw, foldl_rowUpdate_getElem?] at hj
  simp only [List.getElem?_nil, optMax_none_left] at hj
  have hmem : cw ∈ colCells arr j := maxPresent_mem _ _ hj
  rcases List.mem_filterMap.mp hmem with ⟨row, hrow, hmap⟩
  cases hre : row[j]? with
  | none => rw [hre] at hmap; cases hmap
  | some e =>
      rw [hre] at hmap
      exact ⟨row, hrow, e, hre, by simpa using hmap⟩

/-- In a constructed grid, a cell present at `(index, j)` never exceeds
its column's width. -/
theorem present_le_column_width (arr : List (List Entry)) (g : StringGrid)
    (h : gridInit arr = Except.ok g) (j : Nat) (row : List Entry)
    (hrow : row ∈ arr) (e : Entry) (he : row[j]? = Option.some e) (cw : Int)
    (hj : g.column_widths[j]? = Option.some cw) :
    e.width ≤ cw := by
  obtain ⟨-, -, -, hcw, -, -⟩ := gridInit_ok arr g h
  rw [hcw, foldl_rowUpdate_getElem?] at hj
  simp only [List.getElem?_nil, optMax_none_left] at hj
  have hmem : e.width ∈ colCells arr j :=
    List.mem_filterMap.mpr ⟨row, hrow, by rw [he]; rfl⟩
  exact le_maxPresent _ _ _ hmem hj

/-- If every entry's stored width is the length of its text, every
column width of a constructed grid is nonnegative. -/
theorem column_widths_nonneg (arr : List (List Entry)) (g : StringGrid)
    (h : gridInit arr = Except.ok g)
    (hw : ∀ row ∈ arr, ∀ e ∈ row, e.width = (e.repr.length : Int)) :
    ∀ w ∈ g.column_widths, 0 ≤ w := by
  intro w hwmem
  rcases List.getElem?_of_mem hwmem with ⟨j, hj⟩
  rcases column_width_attained arr g h j w hj with ⟨row, hrow, e, he, hew⟩
  have := hw row hrow e (List.getElem?_mem he)
  rw [← hew, this]
  exact Int.natCast_nonneg _

/-- Each rendered row of a constructed grid whose entries all have
`width = length(repr)` has the same total length
`1 + Σ (columnWidths[j] + 3)` as the splitter lines. -/
theorem renderRow_length (arr : List (List Entry)) (g : StringGrid)
    (h : gridInit arr = Except.ok g)
    (hw : ∀ row ∈ arr, ∀ e ∈ row, e.width = (e.repr.length : Int))
    (index : Nat) :
    (renderRow g index).length =
      1 + (g.column_widths.map (fun w => w.toNat + 3)).sum := by
  obtain ⟨ha, -, hcc, hcw, -, -⟩ := gridInit_ok arr g h
  have hcollen : g.column_widths.length = g.column_count := by
    rw [hcw, foldl_rowUpdate_length, hcc]; rfl
  have hpiece : ∀ j : Nat, j < g.column_count →
      (cellOrBlank g index j).length = (g.column_widths.getD j 0).toNat + 2 := by
    intro j hj
    have hjlt : j < g.column_widths.length := by omega
    rcases List.getElem?_eq_some_iff.mpr ⟨hjlt, rfl⟩ with hsome
    have hgetD : g.column_widths.getD j 0 = g.column_widths[j] := by
      rw [List.getD_eq_getElem?_getD, hsome]; rfl
    unfold cellOrBlank renderCell
    cases hget : (g.array2d.getD index [])[j]? with
    | none =>
        simp [List.length_replicate]
    | some e =>
        rw [ha] at hget
        cases harr : arr[index]? with
        | none =>
            rw [List.getD_eq_getElem?_getD, harr] at hget
            cases hget
        | some row =>
            have hrowD : arr.getD index [] = row := by
              rw [List.getD_eq_getElem?_getD, harr]; rfl
            rw [hrowD] at hget
            have hrowmem : row ∈ arr := List.getElem?_mem harr
            have hle : e.width ≤ g.column_widths[j] :=
              present_le_column_width arr g h j row hrowmem e hget _ hsome
            have hew : e.width = (e.repr.length : Int) :=
              hw row hrowmem e (List.getElem?_mem hget)
            have := renderCellE_length e (g.column_widths.getD j 0)
              (by rw [hgetD]; omega)
            simp only [this]
            rw [hgetD]
            omega
  rw [renderRow_eq]
  have hlen : ((List.range g.column_count).map
      (fun j => cellOrBlank g index j ++ ['|'])).flatten.length =
      ((List.range g.column_count).map
        (fun j => (g.column_widths.getD j 0).toNat + 3)).sum := by
    rw [List.length_flatten, List.map_map]
    congr 1
    apply List.map_congr_left
    intro j hj
    have hp := hpiece j (List.mem_range.mp hj)
    simp only [Function.comp_def, List.length_append, List.length_cons,
      List.length_nil, hp]
  rw [List.length_cons, hlen, ← hcollen,
    sum_map_range_getD g.column_widths (fun w => w.toNat + 3)]
  omega

/-- C3 counterexample: the claim as stated is false.  `Entry('ab',
width=1)` is accepted by construction, the grid builds successfully,
but its splitter lines have length 5 while its rendered row has length
6 — the lines of a successfully constructed grid need not share one
length. -/
theorem c3_counterexample :
    gridInit arrW = Except.ok gridW ∧
    ¬ (∀ l1 ∈ render_list gridW, ∀ l2 ∈ render_list gridW,
        l1.length = l2.length) :=
  ⟨rfl, by decide⟩

/-- C3 amended: in every successfully constructed grid all of whose
cells have `displayWidth` equal to the length of their text (as holds
whenever no explicit `width` argument was supplied), every line
produced by render — each rendered row and each splitter — has the
same total length, `1 + Σⱼ (columnWidths[j] + 3)`. -/
theorem c3_amended_uniform_line_length (arr : List (List Entry))
    (g : StringGrid) (h : gridInit arr = Except.ok g)
    (hw : ∀ row ∈ arr, ∀ e ∈ row, e.width = (e.repr.length : Int)) :
    ∀ line ∈ render_list g,
      line.length = 1 + (g.column_widths.map (fun w => w.toNat + 3)).sum := by
  obtain ⟨-, -, hcc, hcw, -, hcc1⟩ := gridInit_ok arr g h
  have hcollen : g.column_widths.length = g.column_count := by
    rw [hcw, foldl_rowUpdate_length, hcc]; rfl
  have hne : g.column_widths ≠ [] := by
    intro hnil
    rw [hnil] at hcollen
    simp only [List.length_nil] at hcollen
    omega
  have hpos := column_widths_nonneg arr g h hw
  have hsplit := renderHorizontalSplitter_length g.column_widths hne hpos
  have hrow := renderRow_length arr g h hw
  intro line hline
  simp only [render_list] at hline
  by_cases hrc : g.row_count > 1
  · rw [if_pos hrc] at hline
    simp only [List.mem_append, List.mem_cons, List.mem_map,
      List.not_mem_nil, or_false] at hline
    rcases hline with ((h1 | h2 | h3) | ⟨i, -, h4⟩) | h5
    · rw [h1]; exact hsplit
    · rw [h2]; exact hrow 0
    · rw [h3]; exact hsplit
    · rw [← h4]; exact hrow i
    · rw [h5]; exact hsplit
  · rw [if_neg hrc] at hline
    simp only [List.mem_cons, List.not_mem_nil, or_false] at hline
    rcases hline with h1 | h2 | h3
    · rw [h1]; exact hsplit
    · rw [h2]; exact hrow 0
    · rw [h3]; exact hsplit

/-- Witness for the amended C3 at Scenario A: the rendered row of
`[[Entry('x')]]` has the common length 1 + (1 + 3) = 5. -/
theorem c3_witness :
    (renderRow gridA 0).length =
      1 + (gridA.column_widths.map (fun w => w.toNat + 3)).sum :=
  c3_amended_uniform_line_length arrA gridA rfl (by decide)
    (renderRow gridA 0) (by decide)

/-- The bytes of `女神様` carried into the typed engine (each byte one
position), with the stored width `len('女神様') = 9`. -/
def goddessChars : List Char := goddessUtf8.map Char.ofNat

/-- Scenario D input as the code actually builds it: the wide text (no
explicit width) above a 4-column ASCII text. -/
def arrD : List (List Entry) :=
  [[⟨goddessChars, Align.left, 9⟩], [⟨['a', 'b', 'c', 'd'], Align.left, 4⟩]]

/-- C4 counterexample: the claim as stated is false.  `Entry('女神様')`
— the wide text enters as its UTF-8 byte sequence, the only text type
the constructor accepts — is given `displayWidth` 9 (the byte length),
while the east-asian-width-aware width of the three ideographs is 6;
consequently Scenario D's column gets width 9, not 6. -/
theorem c4_counterexample :
    entryInit (PyVal.str goddessUtf8) (PyVal.str leftBytes) PyVal.none =
      Except.ok ⟨PyVal.str goddessUtf8, PyVal.str leftBytes, 9⟩ ∧
    specDisplayWidth goddessCodepoints = 6 ∧
    Except.map StringGrid.column_widths (gridInit arrD) = Except.ok [9] ∧
    (9 : Int) ≠ ((specDisplayWidth goddessCodepoints : Nat) : Int) :=
  ⟨rfl, rfl, rfl, by decide⟩

/-- C4 amended: for every Cell constructed from byte-string text
without a truthy explicit width, `displayWidth` equals the byte length
of the text — no east-asian-width measurement is performed, so wide
text needs an explicit `width` (the repository's own example passes
`width=6`) to obtain the spec's Scenario D column width. -/
theorem c4_amended_width_is_byte_length (s : List Nat) (a w : PyVal)
    (hwf : pyTruthy w = false) (e : PyEntry)
    (h : entryInit (PyVal.str s) a w = Except.ok e) :
    e.width = (s.length : Int) := by
  unfold entryInit at h
  rw [if_neg (by simp [isPyStr])] at h
  split at h
  · simp at h
  · rw [if_neg (by simp [hwf]), if_neg (by simp [hwf])] at h
    simp only [pyLen] at h
    injection h with h
    rw [← h]

/-- Witness for the amended C4: `Entry('女神様')` stores width 9, the
byte length of the UTF-8 text. -/
theorem c4_witness :
    (⟨PyVal.str goddessUtf8, PyVal.str leftBytes, 9⟩ : PyEntry).width =
      (goddessUtf8.length : Int) :=
  c4_amended_width_is_byte_length goddessUtf8 (PyVal.str leftBytes) PyVal.none
    rfl _ rfl

/-- C5 counterexample: the claim as stated is false.  A raw binary byte
sequence (the UTF-8 bytes of `女神様`) is accepted without any
`InvalidTextType` failure, while a proper Unicode text value is the one
rejected with it. -/
theorem c5_counterexample :
    entryInit (PyVal.str goddessUtf8) (PyVal.str leftBytes) PyVal.none ≠
      Except.error PyError.invalidTextType ∧
    entryInit (PyVal.unicode ['a', 'b', 'c']) (PyVal.str leftBytes) PyVal.none =
      Except.error PyError.invalidTextType := by
  constructor
  · have hok : entryInit (PyVal.str goddessUtf8) (PyVal.str leftBytes)
        PyVal.none =
        Except.ok ⟨PyVal.str goddessUtf8, PyVal.str leftBytes, 9⟩ := rfl
    rw [hok]
    simp
  · rfl

/-- C5 amended: Cell construction fails with the `InvalidTextType`
condition exactly when the text argument is truthy and is not a Python
2 byte string (`str`); byte sequences — including raw binary ones — are
what is accepted, and truthy Unicode text objects are rejected. -/
theorem c5_amended_text_check (v a w : PyVal) :
    entryInit v a w = Except.error PyError.invalidTextType ↔
      pyTruthy v = true ∧ isPyStr v = false := by
  by_cases h1 : (pyTruthy v && !isPyStr v) = true
  · have h1' := h1
    simp only [Bool.and_eq_true, Bool.not_eq_true'] at h1'
    unfold entryInit
    rw [if_pos h1]
    simp [h1'.1, h1'.2]
  · have hne : entryInit v a w ≠ Except.error PyError.invalidTextType := by
      unfold entryInit
      rw [if_neg h1]
      split
      · simp
      · split
        · simp
        · split
          · simp
          · split <;> simp
    constructor
    · intro hcon; exact absurd hcon hne
    · intro ⟨ht, hs⟩
      exfalso
      apply h1
      simp [ht, hs]

/-- Witness for the amended C5: a truthy `unicode` value is rejected
with `InvalidTextType`. -/
theorem c5_witness :
    entryInit (PyVal.unicode ['l', 'e', 'f', 't']) (PyVal.str leftBytes)
      PyVal.none = Except.error PyError.invalidTextType :=
  (c5_amended_text_check (PyVal.unicode ['l', 'e', 'f', 't'])
    (PyVal.str leftBytes) PyVal.none).mpr ⟨rfl, rfl⟩

/-- C6 counterexample: the claim as stated is false.  The constructor
accepts a truthy negative explicit width — `Entry('abc', width=-5)` —
and stores `displayWidth = -5 < 0`. -/
theorem c6_counterexample :
    entryInit (PyVal.str [97, 98, 99]) (PyVal.str leftBytes)
      (PyVal.int (-5)) =
      Except.ok ⟨PyVal.str [97, 98, 99], PyVal.str leftBytes, -5⟩ ∧
    ¬ (0 ≤ (⟨PyVal.str [97, 98, 99], PyVal.str leftBytes, -5⟩ : PyEntry).width) :=
  ⟨rfl, by decide⟩

/-- C6 amended: `displayWidth` is computed once at construction (a pure
function of the arguments in this embedding) and is nonnegative for
every accepted combination in which the width argument is not truthy —
it is then `len(text)`; a truthy explicit integer width is stored as
given and may be negative. -/
theorem c6_amended_width_nonneg (v a w : PyVal) (hwf : pyTruthy w = false)
    (e : PyEntry) (h : entryInit v a w = Except.ok e) : 0 ≤ e.width := by
  unfold entryInit at h
  split at h
  · simp at h
  · split at h
    · simp at h
    · rw [if_neg (by simp [hwf]), if_neg (by simp [hwf])] at h
      cases hlen : pyLen v with
      | none => rw [hlen] at h; simp at h
      | some n =>
          rw [hlen] at h
          injection h with h
          rw [← h]
          exact Int.natCast_nonneg n

/-- Witness for the amended C6: `Entry('a')` stores width 1 ≥ 0. -/
theorem c6_witness :
    0 ≤ (⟨PyVal.str [97], PyVal.str leftBytes, 1⟩ : PyEntry).width :=
  c6_amended_width_nonneg (PyVal.str [97]) (PyVal.str leftBytes) PyVal.none
    rfl _ rfl

/-- C10: a falsy text argument skips the text-type validation entirely:
construction never fails with `InvalidTextType`, and whenever it
succeeds the falsy non-string value is stored unchanged as the cell's
text. -/
theorem c10_falsy_text_skips_check (v a w : PyVal)
    (hv : pyTruthy v = false) :
    entryInit v a w ≠ Except.error PyError.invalidTextType ∧
    (storedRepr (entryInit v a w)).getD v = v := by
  unfold entryInit
  rw [if_neg (by simp [hv])]
  constructor
  · split
    · simp
    · split
      · simp
      · split
        · simp
        · split <;> simp
  · split
    · rfl
    · split
      · rfl
      · split
        · rfl
        · split <;> rfl

/-- Witness for C10: the falsy non-string `[]` (an empty Python list)
is accepted — no `InvalidTextType` — and stored unchanged. -/
theorem c10_witness :
    entryInit (PyVal.list []) (PyVal.str leftBytes) PyVal.none ≠
      Except.error PyError.invalidTextType ∧
    (storedRepr (entryInit (PyVal.list []) (PyVal.str leftBytes)
      PyVal.none)).getD (PyVal.list []) = PyVal.list [] :=
  c10_falsy_text_skips_check (PyVal.list []) (PyVal.str leftBytes)
    PyVal.none rfl

end Strgrid
